import Mathlib

/-!
# Verification of the vckube remote-command fan-out and cluster-state cache

Shallow embedding of the core of `vckube/__init__.py`: the result reporter
(`cmd_remote_command_print_result`), the fan-out dispatcher
(`cmd_remote_command`), the machine directory (`get_vm_names`) and the
pickle cache accessor (`pickle_load`).  External collaborators (the
`remote_cmd` SSH transport from the `cmdssh` module, the filesystem, the
virtualization tool) are modelled as explicit parameters or environment
fields; everything the Python code itself does is translated faithfully.
-/

namespace Vckube

/-! ## Python string primitives -/

/-- Python's `str.strip()`: removes leading and trailing whitespace. -/
def pyStrip (s : String) : String :=
  String.mk (((s.data.dropWhile Char.isWhitespace).reverse.dropWhile Char.isWhitespace).reverse)

/-- Lexicographic comparison of character lists by code point, Python's
`<=` on strings. -/
def strLeChars : List Char → List Char → Bool
  | [], _ => true
  | _ :: _, [] => false
  | a :: as, b :: bs =>
    if a.toNat < b.toNat then true
    else if b.toNat < a.toNat then false
    else strLeChars as bs

/-- Python's `<=` on strings. -/
def strLe (a b : String) : Bool :=
  strLeChars a.data b.data

/-- Insert a string into a (sorted) list, keeping `strLe` order. -/
def orderedInsertStr (x : String) : List String → List String
  | [] => [x]
  | y :: ys => if strLe x y then x :: y :: ys else y :: orderedInsertStr x ys

/-- Python's `sorted` on a list of strings (ascending lexicographic,
stable), as an insertion sort. -/
def sortStr (l : List String) : List String :=
  l.foldr orderedInsertStr []

/-! ## Result Reporter — `cmd_remote_command_print_result` (source lines 712-731) -/

/-- The transformation the reporter applies to a raw result before comparing
and printing: `result = result.strip()`, and if the stripped text contains a
newline it is wrapped as `"\n" + result + "\n-"` (source lines 719-722). -/
def stripWrap (result : String) : String :=
  let r := pyStrip result
  if '\n' ∈ r.data then "\n" ++ r ++ "\n-" else r

/-- Observable outcome of one `cmd_remote_command_print_result` call:
`label` is the console label, `renderedFull` is `true` when the full result
text is printed and `false` when only the terse `"same"` marker is printed,
`returned` is the function's return value (threaded as `lastoutput`). -/
structure PrintOutcome where
  label : String
  renderedFull : Bool
  returned : String
deriving Repr, DecidableEq

/-- `cmd_remote_command_print_result(server, result, lastoutput="")`,
source lines 712-731: strips and wraps the result, prints it in full when it
differs from `lastoutput`, otherwise prints only a `"same"` marker; returns
the wrapped result. -/
def cmd_remote_command_print_result (server result lastoutput : String) : PrintOutcome :=
  let r := stripWrap result
  if r ≠ lastoutput then ⟨"results " ++ server, true, r⟩
  else ⟨"results " ++ server ++ ":", false, r⟩

/-! ## Fan-Out Dispatcher — `cmd_remote_command` (source lines 630-709) -/

/-- Failure conditions of the external `remote_cmd` transport (the spec's
`Timeout` and `RemoteCommandFailure`). -/
inductive RemoteError where
  | timeout
  | commandFailure
deriving Repr, DecidableEq

/-- Observable outcome of one `cmd_remote_command` dispatch:
`invoked` lists the hosts passed to `remote_cmd` in order, `reports` the
`cmd_remote_command_print_result` calls (with their outcomes), `dones` the
members whose output was empty (reported via `info`/`warning ... done`),
and `escaped` the exception, if any, escaping `cmd_remote_command`. -/
structure DispatchOutcome where
  invoked : List String
  reports : List (String × PrintOutcome)
  dones : List String
  escaped : Option RemoteError
deriving Repr, DecidableEq

/-- The serial fan-out loop, source lines 668-692 (the `parallel is False`
branch): for each member name, `remote_cmd(name + '.a8.nl', cmd, ...)` is
called with NO surrounding try/except, so an exception escapes at once;
a non-blank result is printed via `cmd_remote_command_print_result(name,
result)` (with the DEFAULT `lastoutput=""`), a blank one via `info`; then
the wait is applied: `str(wait) == "-1"` asks `query_yes_no` (modelled by
the `confirms` list; an empty list stands for the default `True` answer)
and a negative answer breaks the loop; any other wait just sleeps. -/
def serialLoop (exec : String → String → Except RemoteError String)
    (command : String) (wait : Int) :
    List Bool → List String → DispatchOutcome
  | _, [] => ⟨[], [], [], none⟩
  | confirms, name :: rest =>
    let host := name ++ ".a8.nl"
    match exec host command with
    | .error e => ⟨[host], [], [], some e⟩
    | .ok result =>
      let reps := if pyStrip result ≠ "" then
          [(name, cmd_remote_command_print_result name result "")] else []
      let dones := if pyStrip result ≠ "" then [] else [name]
      if wait = -1 then
        match confirms with
        | [] =>
          let o := serialLoop exec command wait [] rest
          ⟨host :: o.invoked, reps ++ o.reports, dones ++ o.dones, o.escaped⟩
        | c :: cs =>
          if c then
            let o := serialLoop exec command wait cs rest
            ⟨host :: o.invoked, reps ++ o.reports, dones ++ o.dones, o.escaped⟩
          else ⟨[host], reps, dones, none⟩
      else
        let o := serialLoop exec command wait confirms rest
        ⟨host :: o.invoked, reps ++ o.reports, dones ++ o.dones, o.escaped⟩

/-- The parallel result-collection loop, source lines 694-703: iterating
`executor.map(remote_cmd_map, commands)` yields results in submission
order; a non-blank result is printed with the threaded `lastoutput`, a
blank one produces a `"... done"` warning; an exception raised by a task
escapes when its result is iterated, aborting the loop. -/
def parallelLoop (exec : String → String → Except RemoteError String)
    (command : String) :
    String → List String → List (String × PrintOutcome) × List String × Option RemoteError
  | _, [] => ([], [], none)
  | lastoutput, host :: rest =>
    match exec host command with
    | .error e => ([], [], some e)
    | .ok result =>
      let name := (host.splitOn ".").headD host
      if pyStrip result ≠ "" then
        let p := cmd_remote_command_print_result name result lastoutput
        let o := parallelLoop exec command p.returned rest
        ((name, p) :: o.1, o.2.1, o.2.2)
      else
        let o := parallelLoop exec command lastoutput rest
        (o.1, name :: o.2.1, o.2.2)

/-- `cmd_remote_command(command, parallel, wait, server, timeout, keypath)`,
source lines 630-709.  `exec` stands for the external `remote_cmd`
transport (host, command ↦ captured output or a raised condition);
`vmnames` is the member list obtained from `get_vm_names()`.
With a `server` given (lines 704-709) exactly one `remote_cmd` on
`server + '.a8.nl'` is run and a truthy (non-empty) result is printed.
With `server is None`: if the command string is itself a member name the
loop body never runs (line 665 `if command not in vmnames`); otherwise the
serial loop or the process pool runs.  In parallel mode `wait` is forced
to `0` (lines 650-654). -/
def cmd_remote_command (exec : String → String → Except RemoteError String)
    (command : String) (parallel : Bool) (wait : Int) (server : Option String)
    (confirms : List Bool) (vmnames : List String) : DispatchOutcome :=
  let wait := if parallel then 0 else wait
  match server with
  | some srv =>
    let host := srv ++ ".a8.nl"
    match exec host command with
    | .error e => ⟨[host], [], [], some e⟩
    | .ok result =>
      if result ≠ "" then ⟨[host], [(srv, cmd_remote_command_print_result srv result "")], [], none⟩
      else ⟨[host], [], [], none⟩
  | none =>
    if command ∈ vmnames then ⟨[], [], [], none⟩
    else if parallel then
      let hosts := vmnames.map (fun n => n ++ ".a8.nl")
      let o := parallelLoop exec command "" hosts
      ⟨hosts, o.1, o.2.1, o.2.2⟩
    else serialLoop exec command wait confirms vmnames

/-! ## Machine Directory — `get_vm_names` (source lines 1246-1296) -/

/-- Content of the `.cl/vmnames.pickle` cache file: either bytes that
`pickle.load` cannot decode, or a valid pickled list of
`(name, optional ssh-config blob)` pairs. -/
inductive PickleFile where
  | corrupt
  | valid (entries : List (String × Option String))
deriving Repr, DecidableEq

/-- The environment `get_vm_names` runs in: whether a `Vagrantfile` is
present in the current directory, the `num_instances` value its text
declares (the value `get_num_instances`, lines 1180-1186, parses out of
it), the host platform (`is_osx`, lines 1418-1427), the current content of
the `.cl/vmnames.pickle` cache, and the behaviour of the external
virtualization tool's live-status query (`vagrant.Vagrant().status()`):
whether it would raise `subprocess.CalledProcessError`, and the machine
names it would report otherwise. -/
structure VmEnv where
  vagrantfileExists : Bool
  numInstances : Nat
  osx : Bool
  cache : Option PickleFile
  statusFails : Bool
  statusNames : List String
deriving Repr, DecidableEq

/-- `get_num_instances()`, source lines 1180-1186: reads the Vagrantfile
and parses `num_instances` with `int(...)`, which always yields an integer
(or raises an uncaught `ValueError`); it can never return `None`.  The
`Option` return type mirrors the `if numinstances is None` test at source
line 1277. -/
def get_num_instances (env : VmEnv) : Option Nat :=
  some env.numInstances

/-- Exceptions arising inside the `try` block of `get_vm_names`:
`unpicklingError` from `pickle.load` on a corrupt cache file, and
`calledProcessError` (`subprocess.CalledProcessError`) from an external
tool invocation — the only class the `except` clause at line 1290
catches. -/
inductive VmError where
  | unpicklingError
  | calledProcessError
deriving Repr, DecidableEq

/-- Equality of `Except` values is decidable when it is on both sides. -/
def exceptDecEq {ε α : Type} [DecidableEq ε] [DecidableEq α] : DecidableEq (Except ε α)
  | .error x, .error y =>
    if h : x = y then .isTrue (congrArg Except.error h)
    else .isFalse (fun hc => h (Except.error.inj hc))
  | .error _, .ok _ => .isFalse (fun hc => Except.noConfusion hc)
  | .ok _, .error _ => .isFalse (fun hc => Except.noConfusion hc)
  | .ok x, .ok y =>
    if h : x = y then .isTrue (congrArg Except.ok h)
    else .isFalse (fun hc => h (Except.ok.inj hc))

instance {ε α : Type} [DecidableEq ε] [DecidableEq α] : DecidableEq (Except ε α) :=
  exceptDecEq

/-- Observable outcome of a `get_vm_names` call: the returned list (or the
escaping exception), the cache file content afterwards, whether the result
was served by reading the cache (`fromCache`), how many times the live
virtualization-tool status query ran (`statusCalls`) and how many retry
calls `get_vm_names(True)` were made (`retries`). -/
structure VmNamesOutcome where
  result : Except VmError (List String)
  cache : Option PickleFile
  fromCache : Bool
  statusCalls : Nat
  retries : Nat
deriving Repr, DecidableEq

/-- One attempt of the `try` body of `get_vm_names`, source lines 1251-1289:
make `.cl` if needed; return `[]` when no `Vagrantfile` exists; if the
cache file exists, unpickle it (raising on corrupt bytes) and return the
sorted first components; otherwise synthesize `core1..coreN` (OSX) or
`node1..nodeN` from the declared instance count, query the live status
only when that count is `None` (which `get_num_instances` never produces),
write the cache when at least one member was found, and return the sorted
names.  The `retries` field of the body outcome is always `0`. -/
def get_vm_names_body (env : VmEnv) : VmNamesOutcome :=
  if ¬ env.vagrantfileExists then ⟨.ok [], env.cache, false, 0, 0⟩
  else
    match env.cache with
    | some .corrupt => ⟨.error .unpicklingError, env.cache, false, 0, 0⟩
    | some (.valid entries) =>
      ⟨.ok (sortStr (entries.map Prod.fst)), env.cache, true, 0, 0⟩
    | none =>
      match get_num_instances env with
      | some n =>
        let synth := (List.range n).map (fun i =>
          ((if env.osx then "core" else "node") ++ toString (i + 1), (none : Option String)))
        let cacheAfter := if synth.length > 0 then some (.valid synth) else env.cache
        ⟨.ok (sortStr (synth.map Prod.fst)), cacheAfter, false, 0, 0⟩
      | none =>
        if env.statusFails then ⟨.error .calledProcessError, env.cache, false, 1, 0⟩
        else
          let vmnames := env.statusNames.map (fun s => (s, some s))
          let cacheAfter := if vmnames.length > 0 then some (.valid vmnames) else env.cache
          ⟨.ok (sortStr (vmnames.map Prod.fst)), cacheAfter, false, 1, 0⟩

/-- `get_vm_names(retry=False)`, source lines 1246-1296: runs the body; a
`subprocess.CalledProcessError` is caught and the whole resolution retried
once from scratch (`return get_vm_names(True)`, the recursion unfolded
here), and a second such failure returns `[]`; every other exception
(notably the unpickling error) propagates. -/
def get_vm_names (env : VmEnv) : VmNamesOutcome :=
  let b := get_vm_names_body env
  match b.result with
  | .error .calledProcessError =>
    let b2 := get_vm_names_body { env with cache := b.cache }
    match b2.result with
    | .error .calledProcessError =>
      ⟨.ok [], b2.cache, b2.fromCache, b.statusCalls + b2.statusCalls, 1⟩
    | r => ⟨r, b2.cache, b2.fromCache, b.statusCalls + b2.statusCalls, 1⟩
  | r => ⟨r, b.cache, b.fromCache, b.statusCalls, 0⟩

/-! ## Pickle cache accessor — `pickle_load` (source lines 284-297) -/

/-- The OS error raised for a missing pickle file.  The source raises
`FileExistsError` (line 295) — `fileNotFoundError` is included so the
distinction the code makes is expressible. -/
inductive OsError where
  | fileExistsError (path : String)
  | fileNotFoundError (path : String)
deriving Repr, DecidableEq

/-- The path `pickle_load`/`pickle_save` use:
`os.path.join(os.path.join(workingdir, ".vckube"), name)`. -/
def vckube_pickle_path (workingdir name : String) : String :=
  workingdir ++ "/.vckube" ++ "/" ++ name

/-- `pickle_load(commandline, name)`, source lines 284-297: builds the path
under the project's `.vckube` directory; when no file exists there it
raises `FileExistsError(ppath)`; otherwise it unpickles the file.  The
filesystem `fs` (path ↦ optional stored value) is returned unchanged:
the function performs no write. -/
def pickle_load (workingdir name : String) (fs : String → Option α) :
    Except OsError α × (String → Option α) :=
  let ppath := vckube_pickle_path workingdir name
  match fs ppath with
  | none => (.error (.fileExistsError ppath), fs)
  | some o => (.ok o, fs)

/-! ## Target index parse — `int(server)` in `cmd_connect_ssh` (source line 203) -/

/-- The `int(server)` parse attempted by the interactive connect flow when
the target is not a member name (source lines 201-205); `none` models the
`ValueError` case.  (Sign and surrounding whitespace are irrelevant for the
targets considered here.) -/
def pyIntParse (s : String) : Option Nat :=
  if s.data ≠ [] ∧ s.data.all (fun c => c.isDigit) then
    some (s.data.foldl (fun n c => 10 * n + (c.toNat - 48)) 0)
  else none

/-! ## Concrete fixtures used by witnesses and counterexamples -/

/-- A transport that succeeds on every host with the output `"out"`. -/
def execOk : String → String → Except RemoteError String :=
  fun _ _ => .ok "out"

/-- A transport that raises `Timeout` on `core2.a8.nl` and succeeds
elsewhere. -/
def execC1 : String → String → Except RemoteError String :=
  fun host _ => if host = "core2.a8.nl" then .error .timeout else .ok "load average 0.1"

/-- A transport whose captured output is a single space: non-empty (truthy
in Python), but blank after stripping. -/
def execBlank : String → String → Except RemoteError String :=
  fun _ _ => .ok " "

/-- Project state for the C4 scenario: no cache, `num_instances = 3`,
non-OSX host. -/
def envC4 : VmEnv := ⟨true, 3, false, none, false, []⟩

/-- Project state with one declared instance on an OSX host. -/
def envC5 : VmEnv := ⟨true, 1, true, none, false, []⟩

/-- Project state whose membership cache file exists but is corrupt. -/
def envC6 : VmEnv := ⟨true, 3, false, some .corrupt, false, []⟩

/-- Project state in which the live-status query of the virtualization
tool would raise `subprocess.CalledProcessError`. -/
def envC7 : VmEnv := ⟨true, 3, false, none, true, []⟩

/-- Project state with `num_instances = 0`: resolution finds no member. -/
def envNoMembers : VmEnv := ⟨true, 0, false, none, false, []⟩

/-! ## Helper lemmas: the reporter -/

/-- `stripWrap` depends only on the stripped text. -/
theorem stripWrap_congr (a b : String) (h : pyStrip a = pyStrip b) :
    stripWrap a = stripWrap b := by
  simp [stripWrap, h]

/-- The newline is visible in the data of a wrapped result. -/
theorem newline_mem_wrapped (r : String) :
    '\n' ∈ (("\n" ++ r) ++ "\n-").data := by
  rw [String.data_append, String.data_append]
  exact List.mem_append.mpr (Or.inl (List.mem_append.mpr (Or.inl (by decide))))

/-- `stripWrap` is injective up to stripping: equal wrapped outputs come
from equal stripped outputs. -/
theorem pyStrip_eq_of_stripWrap_eq {a b : String} (h : stripWrap a = stripWrap b) :
    pyStrip a = pyStrip b := by
  unfold stripWrap at h
  by_cases h1 : '\n' ∈ (pyStrip a).data <;> by_cases h2 : '\n' ∈ (pyStrip b).data
  · rw [if_pos h1, if_pos h2] at h
    have hd := congrArg String.data h
    rw [String.data_append, String.data_append, String.data_append,
      String.data_append] at hd
    exact String.ext (List.append_cancel_left (List.append_cancel_right hd))
  · rw [if_pos h1, if_neg h2] at h
    exact absurd (h ▸ newline_mem_wrapped (pyStrip a)) h2
  · rw [if_neg h1, if_pos h2] at h
    exact absurd (h.symm ▸ newline_mem_wrapped (pyStrip b)) h1
  · rwa [if_neg h1, if_neg h2] at h

/-- A result that is non-blank after stripping wraps to a non-empty
string. -/
theorem stripWrap_ne_empty {a : String} (h : pyStrip a ≠ "") : stripWrap a ≠ "" := by
  unfold stripWrap
  by_cases h1 : '\n' ∈ (pyStrip a).data
  · rw [if_pos h1]
    intro hc
    have hlen := congrArg String.length hc
    rw [String.length_append, String.length_append] at hlen
    have e1 : ("\n" : String).length = 1 := rfl
    have e2 : ("\n-" : String).length = 2 := rfl
    have e3 : ("" : String).length = 0 := rfl
    omega
  · rwa [if_neg h1]

/-- The reporter prints in full exactly when the wrapped result differs
from the threaded previous output. -/
theorem print_full_of_ne {server result lastoutput : String}
    (h : stripWrap result ≠ lastoutput) :
    (cmd_remote_command_print_result server result lastoutput).renderedFull = true := by
  simp [cmd_remote_command_print_result, h]

/-- The reporter prints the `"same"` marker exactly when the wrapped result
equals the threaded previous output. -/
theorem print_same_of_eq {server result lastoutput : String}
    (h : stripWrap result = lastoutput) :
    (cmd_remote_command_print_result server result lastoutput).renderedFull = false := by
  simp [cmd_remote_command_print_result, h]

/-- The reporter returns the wrapped result, which the caller threads as
the next `lastoutput`. -/
theorem print_returned (server result lastoutput : String) :
    (cmd_remote_command_print_result server result lastoutput).returned
      = stripWrap result := by
  unfold cmd_remote_command_print_result
  by_cases h : stripWrap result ≠ lastoutput
  · rw [if_pos h]
  · rw [if_neg h]

/-- With the default empty `lastoutput`, a non-blank result is always
printed in full. -/
theorem print_default_full {server result : String} (h : pyStrip result ≠ "") :
    (cmd_remote_command_print_result server result "").renderedFull = true :=
  print_full_of_ne (stripWrap_ne_empty h)

/-! ## Helper lemmas: the serial loop -/

/-- When the transport succeeds on every member ahead of `m` and raises on
`m`, the serial loop stops at `m`: the exception escapes, the members after
`m` are never contacted, and no report is produced for `m`. -/
theorem serialLoop_error (exec : String → String → Except RemoteError String)
    (command : String) (wait : Int) (e : RemoteError) (m : String)
    (hw : wait ≠ -1) :
    ∀ (pre : List String) (post : List String) (confirms : List Bool),
    (∀ n ∈ pre, ∃ r, exec (n ++ ".a8.nl") command = .ok r) →
    exec (m ++ ".a8.nl") command = .error e →
    (serialLoop exec command wait confirms (pre ++ m :: post)).escaped = some e ∧
    (serialLoop exec command wait confirms (pre ++ m :: post)).invoked
        = (pre ++ [m]).map (fun n => n ++ ".a8.nl") ∧
    (∀ p ∈ (serialLoop exec command wait confirms (pre ++ m :: post)).reports,
      p.1 ∈ pre) := by
  intro pre
  induction pre with
  | nil =>
    intro post confirms _ hm
    simp [serialLoop, hm]
  | cons hd tl ih =>
    intro post confirms hok hm
    obtain ⟨r, hr⟩ := hok hd (by simp)
    have hrec := ih post confirms (fun n hn => hok n (by simp [hn])) hm
    refine ⟨?_, ?_, ?_⟩
    · simp [serialLoop, hr, hw, hrec.1]
    · simp [serialLoop, hr, hw, hrec.2.1]
    · intro p hp
      by_cases hblank : pyStrip r = ""
      · simp [serialLoop, hr, hw, hblank] at hp
        exact List.mem_cons_of_mem hd (hrec.2.2 p hp)
      · simp [serialLoop, hr, hw, hblank] at hp
        rcases hp with hp | hp
        · rw [hp]
          exact List.mem_cons_self hd tl
        · exact List.mem_cons_of_mem hd (hrec.2.2 p hp)

/-- When the transport succeeds on every member and the wait is not the
interactive sentinel, the serial loop contacts every member exactly once,
in list order, and no exception escapes. -/
theorem serialLoop_all_ok (exec : String → String → Except RemoteError String)
    (command : String) (wait : Int) (hw : wait ≠ -1) :
    ∀ (members : List String) (confirms : List Bool),
    (∀ n ∈ members, ∃ r, exec (n ++ ".a8.nl") command = .ok r) →
    (serialLoop exec command wait confirms members).invoked
        = members.map (fun n => n ++ ".a8.nl") ∧
    (serialLoop exec command wait confirms members).escaped = none := by
  intro members
  induction members with
  | nil => intro confirms _; exact ⟨rfl, rfl⟩
  | cons hd tl ih =>
    intro confirms hok
    obtain ⟨r, hr⟩ := hok hd (by simp)
    have hrec := ih confirms (fun n hn => hok n (by simp [hn]))
    constructor
    · simp [serialLoop, hr, hw, hrec.1]
    · simp [serialLoop, hr, hw, hrec.2]

/-- Every report the serial loop emits was produced by the reporter from a
successful, non-blank transport result, with the DEFAULT empty
`lastoutput`. -/
theorem serialLoop_report_origin (exec : String → String → Except RemoteError String)
    (command : String) (wait : Int) :
    ∀ (members : List String) (confirms : List Bool) (p : String × PrintOutcome),
    p ∈ (serialLoop exec command wait confirms members).reports →
    ∃ r, exec (p.1 ++ ".a8.nl") command = .ok r ∧ pyStrip r ≠ "" ∧
      p.2 = cmd_remote_command_print_result p.1 r "" := by
  intro members
  induction members with
  | nil => intro confirms p hp; simp [serialLoop] at hp
  | cons hd tl ih =>
    intro confirms p hp
    cases hr : exec (hd ++ ".a8.nl") command with
    | error e => simp [serialLoop, hr] at hp
    | ok r =>
      by_cases hblank : pyStrip r = ""
      · by_cases hwait : wait = -1
        · subst hwait
          cases confirms with
          | nil =>
            simp [serialLoop, hr, hblank] at hp
            exact ih [] p hp
          | cons c cs =>
            cases c with
            | false => simp [serialLoop, hr, hblank] at hp
            | true =>
              simp [serialLoop, hr, hblank] at hp
              exact ih cs p hp
        · simp [serialLoop, hr, hblank, hwait] at hp
          exact ih confirms p hp
      · by_cases hwait : wait = -1
        · subst hwait
          cases confirms with
          | nil =>
            simp [serialLoop, hr, hblank] at hp
            rcases hp with hp | hp
            · rw [hp]
              exact ⟨r, hr, hblank, rfl⟩
            · exact ih [] p hp
          | cons c cs =>
            cases c with
            | false =>
              simp [serialLoop, hr, hblank] at hp
              rw [hp]
              exact ⟨r, hr, hblank, rfl⟩
            | true =>
              simp [serialLoop, hr, hblank] at hp
              rcases hp with hp | hp
              · rw [hp]
                exact ⟨r, hr, hblank, rfl⟩
              · exact ih cs p hp
        · simp [serialLoop, hr, hblank, hwait] at hp
          rcases hp with hp | hp
          · rw [hp]
            exact ⟨r, hr, hblank, rfl⟩
          · exact ih confirms p hp

/-- Every report the serial loop emits is a full rendering: the loop passes
the reporter the default empty `lastoutput` and only non-blank results, so
the `"same"` marker never appears. -/
theorem serialLoop_reports_full (exec : String → String → Except RemoteError String)
    (command : String) (wait : Int) (members : List String) (confirms : List Bool) :
    ((serialLoop exec command wait confirms members).reports.all
      (fun p => p.2.renderedFull)) = true := by
  rw [List.all_eq_true]
  intro p hp
  obtain ⟨r, _, hblank, hprint⟩ :=
    serialLoop_report_origin exec command wait members confirms p hp
  show p.2.renderedFull = true
  rw [hprint]
  exact print_default_full hblank

/-! ## Claim C8 -/

/-- C8 (confirmed): for a pair of consecutive results handed to the Result
Reporter with the previous reported output threaded in (a reporting
sequence starts from the empty `lastoutput`), if the second result's
trimmed output equals the first's (the comparison is performed after both
are wrapped identically, so equality of the wrapped texts is equality of
the trimmed texts), only the terse `"same"` marker is rendered for the
second; if the trimmed outputs differ (and the first is not blank), both
results are rendered in full.  Only the single immediately-prior returned
output is consulted: `cmd_remote_command_print_result` receives nothing
else. -/
theorem C8_reporter_dedup (s1 s2 r1 r2 : String) :
    (pyStrip r1 = pyStrip r2 →
      (cmd_remote_command_print_result s2 r2
        (cmd_remote_command_print_result s1 r1 "").returned).renderedFull = false) ∧
    (pyStrip r1 ≠ "" → pyStrip r1 ≠ pyStrip r2 →
      (cmd_remote_command_print_result s1 r1 "").renderedFull = true ∧
      (cmd_remote_command_print_result s2 r2
        (cmd_remote_command_print_result s1 r1 "").returned).renderedFull = true) := by
  constructor
  · intro heq
    rw [print_returned]
    exact print_same_of_eq (stripWrap_congr r2 r1 heq.symm)
  · intro h1 hne
    refine ⟨print_default_full h1, ?_⟩
    rw [print_returned]
    exact print_full_of_ne (fun hc => hne (pyStrip_eq_of_stripWrap_eq hc).symm)

/-- Witness for C8 at concrete inputs: `"up"` then `" up "` (identical
after stripping) yields the `"same"` marker; `"up"` then `"down"` yields
two full renderings. -/
theorem C8_reporter_dedup_witness :
    (cmd_remote_command_print_result "core2" " up "
      (cmd_remote_command_print_result "core1" "up" "").returned).renderedFull = false ∧
    (cmd_remote_command_print_result "core1" "up" "").renderedFull = true ∧
    (cmd_remote_command_print_result "core2" "down"
      (cmd_remote_command_print_result "core1" "up" "").returned).renderedFull = true := by
  refine ⟨(C8_reporter_dedup "core1" "core2" "up" " up ").1 (by decide), ?_, ?_⟩
  · exact ((C8_reporter_dedup "core1" "core2" "up" "down").2 (by decide) (by decide)).1
  · exact ((C8_reporter_dedup "core1" "core2" "up" "down").2 (by decide) (by decide)).2

/-! ## Helper lemmas: the sort order -/

/-- `strLeChars` is total: when `x ≤ y` fails, `y ≤ x` holds. -/
theorem strLeChars_total : ∀ x y, strLeChars x y = false → strLeChars y x = true
  | [], _, hxy => absurd hxy (by simp [strLeChars])
  | _ :: _, [], _ => rfl
  | a :: as, b :: bs, hxy => by
    unfold strLeChars at hxy ⊢
    by_cases hab : a.toNat < b.toNat
    · rw [if_pos hab] at hxy
      exact absurd hxy (by simp)
    · rw [if_neg hab] at hxy
      by_cases hba : b.toNat < a.toNat
      · rw [if_pos hba]
      · rw [if_neg hba] at hxy
        rw [if_neg hba, if_neg hab]
        exact strLeChars_total as bs hxy

/-- `strLeChars` is transitive. -/
theorem strLeChars_trans : ∀ x y z, strLeChars x y = true → strLeChars y z = true →
    strLeChars x z = true
  | [], _, _, _, _ => rfl
  | _ :: _, [], _, hxy, _ => absurd hxy (by simp [strLeChars])
  | _ :: _, _ :: _, [], _, hyz => absurd hyz (by simp [strLeChars])
  | a :: as, b :: bs, c :: cs, hxy, hyz => by
    unfold strLeChars at hxy hyz ⊢
    by_cases hab : a.toNat < b.toNat
    · by_cases hbc : b.toNat < c.toNat
      · rw [if_pos (by omega : a.toNat < c.toNat)]
      · rw [if_neg hbc] at hyz
        by_cases hcb : c.toNat < b.toNat
        · rw [if_pos hcb] at hyz
          exact absurd hyz (by simp)
        · rw [if_pos (by omega : a.toNat < c.toNat)]
    · rw [if_neg hab] at hxy
      by_cases hba : b.toNat < a.toNat
      · rw [if_pos hba] at hxy
        exact absurd hxy (by simp)
      · rw [if_neg hba] at hxy
        by_cases hbc : b.toNat < c.toNat
        · rw [if_pos (by omega : a.toNat < c.toNat)]
        · rw [if_neg hbc] at hyz
          by_cases hcb : c.toNat < b.toNat
          · rw [if_pos hcb] at hyz
            exact absurd hyz (by simp)
          · rw [if_neg hcb] at hyz
            rw [if_neg (by omega : ¬ a.toNat < c.toNat),
              if_neg (by omega : ¬ c.toNat < a.toNat)]
            exact strLeChars_trans as bs cs hxy hyz

/-- `strLe` is total. -/
theorem strLe_total (a b : String) (h : strLe a b = false) : strLe b a = true :=
  strLeChars_total a.data b.data h

/-- `strLe` is transitive. -/
theorem strLe_trans {a b c : String} (hab : strLe a b = true) (hbc : strLe b c = true) :
    strLe a c = true :=
  strLeChars_trans a.data b.data c.data hab hbc

/-- Membership in an ordered insertion. -/
theorem mem_orderedInsertStr {x y : String} :
    ∀ {l : List String}, y ∈ orderedInsertStr x l ↔ y = x ∨ y ∈ l
  | [] => by simp [orderedInsertStr]
  | z :: zs => by
    unfold orderedInsertStr
    by_cases hxz : strLe x z = true
    · rw [if_pos hxz]
      simp
    · rw [if_neg hxz]
      rw [List.mem_cons, List.mem_cons, mem_orderedInsertStr]
      tauto

/-- Ordered insertion preserves sortedness. -/
theorem pairwise_orderedInsertStr (x : String) :
    ∀ (l : List String), List.Pairwise (fun a b => strLe a b = true) l →
    List.Pairwise (fun a b => strLe a b = true) (orderedInsertStr x l)
  | [], _ => by simp [orderedInsertStr]
  | y :: ys, hp => by
    rcases List.pairwise_cons.mp hp with ⟨hy, hys⟩
    unfold orderedInsertStr
    by_cases hxy : strLe x y = true
    · rw [if_pos hxy]
      refine List.pairwise_cons.mpr ⟨?_, hp⟩
      intro z hz
      rcases List.mem_cons.mp hz with rfl | hz
      · exact hxy
      · exact strLe_trans hxy (hy z hz)
    · rw [if_neg hxy]
      have hxyf : strLe x y = false := by
        revert hxy
        cases strLe x y <;> simp
      refine List.pairwise_cons.mpr ⟨?_, pairwise_orderedInsertStr x ys hys⟩
      intro z hz
      rcases mem_orderedInsertStr.mp hz with hzx | hz
      · rw [hzx]
        exact strLe_total x y hxyf
      · exact hy z hz

/-- `sortStr` sorts: its output is pairwise `strLe`-ordered. -/
theorem sortStr_pairwise : ∀ l : List String,
    List.Pairwise (fun a b => strLe a b = true) (sortStr l)
  | [] => List.Pairwise.nil
  | x :: xs => pairwise_orderedInsertStr x (sortStr xs) (sortStr_pairwise xs)

/-- Ordered insertion grows the length by one. -/
theorem length_orderedInsertStr (x : String) :
    ∀ l : List String, (orderedInsertStr x l).length = l.length + 1
  | [] => rfl
  | y :: ys => by
    unfold orderedInsertStr
    by_cases hxy : strLe x y = true
    · rw [if_pos hxy]
      rfl
    · rw [if_neg hxy]
      simp [length_orderedInsertStr x ys]

/-- `sortStr` preserves length. -/
theorem length_sortStr : ∀ l : List String, (sortStr l).length = l.length
  | [] => rfl
  | x :: xs => by
    have h1 : sortStr (x :: xs) = orderedInsertStr x (sortStr xs) := rfl
    rw [h1, length_orderedInsertStr, length_sortStr xs]
    rfl

/-- An empty sort output comes from an empty input. -/
theorem sortStr_eq_nil {l : List String} (h : sortStr l = []) : l = [] := by
  have hlen := length_sortStr l
  rw [h] at hlen
  cases l with
  | nil => rfl
  | cons x xs => simp at hlen

/-! ## Helper lemmas: the machine directory -/

/-- The body of `get_vm_names` never raises `subprocess.CalledProcessError`:
`get_num_instances` always produces a value, so the live-status query — the
only operation the `except` clause is written for — is unreachable. -/
theorem get_vm_names_body_no_cpe (env : VmEnv) :
    (get_vm_names_body env).result ≠ .error .calledProcessError := by
  rcases env with ⟨vf, n, osx, cache, sf, sn⟩
  cases vf
  · simp [get_vm_names_body]
  · rcases cache with _ | pf
    · simp [get_vm_names_body, get_num_instances]
    · cases pf <;> simp [get_vm_names_body]

/-- `get_vm_names` is a single run of its body: the retry arm of the
`except subprocess.CalledProcessError` handler never executes. -/
theorem get_vm_names_unfold (env : VmEnv) :
    get_vm_names env = ⟨(get_vm_names_body env).result, (get_vm_names_body env).cache,
      (get_vm_names_body env).fromCache, (get_vm_names_body env).statusCalls, 0⟩ := by
  rcases env with ⟨vf, n, osx, cache, sf, sn⟩
  cases vf
  · simp [get_vm_names, get_vm_names_body]
  · rcases cache with _ | pf
    · simp [get_vm_names, get_vm_names_body, get_num_instances]
    · cases pf <;> simp [get_vm_names, get_vm_names_body]

/-- The body of `get_vm_names` never runs the live-status query. -/
theorem get_vm_names_body_statusCalls (env : VmEnv) :
    (get_vm_names_body env).statusCalls = 0 := by
  rcases env with ⟨vf, n, osx, cache, sf, sn⟩
  cases vf
  · simp [get_vm_names_body]
  · rcases cache with _ | pf
    · simp [get_vm_names_body, get_num_instances]
    · cases pf <;> simp [get_vm_names_body]

/-- Any member list `get_vm_names` returns is sorted (it is either empty or
the result of `sorted(...)`). -/
theorem get_vm_names_ok_pairwise (env : VmEnv) (l : List String)
    (h : (get_vm_names env).result = .ok l) :
    List.Pairwise (fun a b => strLe a b = true) l := by
  rw [get_vm_names_unfold] at h
  simp only at h
  rcases env with ⟨vf, n, osx, cache, sf, sn⟩
  cases vf
  · simp [get_vm_names_body] at h
    rw [h]
    exact List.Pairwise.nil
  · rcases cache with _ | pf
    · simp [get_vm_names_body, get_num_instances] at h
      rw [← h]
      exact sortStr_pairwise _
    · cases pf with
      | corrupt => simp [get_vm_names_body] at h
      | valid entries =>
        simp [get_vm_names_body] at h
        rw [← h]
        exact sortStr_pairwise _

/-! ## Claim C1 -/

/-- C1 (counterexample to the claim as stated): members `["core1","core2"]`,
serial fan-out, `remote_cmd` raises `Timeout` on `core2`.  The claim says
the failure is caught and reported and the dispatch returns normally; in
the code the serial loop has no per-member exception handling, so the
`Timeout` escapes `cmd_remote_command` and no entry is reported for
`core2`. -/
theorem C1_counterexample :
    (cmd_remote_command execC1 "uptime" false 0 none [] ["core1", "core2"]).escaped
        = some .timeout ∧
    (cmd_remote_command execC1 "uptime" false 0 none [] ["core1", "core2"]).reports.map
        Prod.fst = ["core1"] := by
  constructor <;> rfl

/-- C1 (amended): in serial fan-out mode, a `Timeout` or
`RemoteCommandFailure` raised for one member is NOT caught by the
dispatcher: the exception escapes `cmd_remote_command` immediately, the
members after the failing one are never contacted, and no result entry is
reported for the failing member.  (`cmd_sshcmd` catches only
`socket.timeout` around the whole dispatch and aborts.) -/
theorem C1_serial_failure_aborts (exec : String → String → Except RemoteError String)
    (command m : String) (e : RemoteError) (pre post : List String)
    (confirms : List Bool)
    (hcmd : command ∉ pre ++ m :: post)
    (hpre : ∀ n ∈ pre, ∃ r, exec (n ++ ".a8.nl") command = .ok r)
    (hm : exec (m ++ ".a8.nl") command = .error e) :
    (cmd_remote_command exec command false 0 none confirms (pre ++ m :: post)).escaped
        = some e ∧
    (cmd_remote_command exec command false 0 none confirms (pre ++ m :: post)).invoked
        = (pre ++ [m]).map (fun n => n ++ ".a8.nl") ∧
    (∀ p ∈ (cmd_remote_command exec command false 0 none confirms
        (pre ++ m :: post)).reports, p.1 ∈ pre) := by
  have h := serialLoop_error exec command 0 e m (by decide) pre post confirms hpre hm
  simpa [cmd_remote_command, hcmd] using h

/-- Witness for C1 at the concrete failing dispatch of the
counterexample. -/
theorem C1_serial_failure_aborts_witness :
    (cmd_remote_command execC1 "uptime" false 0 none [] (["core1"] ++ "core2" :: [])).escaped
        = some RemoteError.timeout ∧
    (cmd_remote_command execC1 "uptime" false 0 none [] (["core1"] ++ "core2" :: [])).invoked
        = (["core1"] ++ ["core2"]).map (fun n => n ++ ".a8.nl") ∧
    (∀ p ∈ (cmd_remote_command execC1 "uptime" false 0 none []
        (["core1"] ++ "core2" :: [])).reports, p.1 ∈ ["core1"]) :=
  C1_serial_failure_aborts execC1 "uptime" "core2" .timeout ["core1"] [] []
    (by decide)
    (by
      intro n hn
      simp only [List.mem_singleton] at hn
      subst hn
      exact ⟨"load average 0.1", rfl⟩)
    rfl

/-! ## Claim C2 -/

/-- C2 (counterexample to the claim as stated): target `"bogus"` is not
`"all"`, not a member of the member list `["core1"]`, and not an integer
index, yet `cmd_remote_command` performs one Remote Executor invocation on
`bogus.a8.nl` and no `UnknownTarget` failure of any kind occurs (the code
has no such check). -/
theorem C2_counterexample :
    ("bogus" ∉ ["core1"]) ∧ "bogus" ≠ "all" ∧ pyIntParse "bogus" = none ∧
    (cmd_remote_command execOk "uptime" false 0 (some "bogus") [] ["core1"]).invoked
        = ["bogus.a8.nl"] ∧
    (cmd_remote_command execOk "uptime" false 0 (some "bogus") [] ["core1"]).escaped
        = none := by
  refine ⟨by decide, by decide, by decide, rfl, rfl⟩

/-- C2 (amended): whenever a target is given, `cmd_remote_command` invokes
the Remote Executor exactly once, on `target + ".a8.nl"`, without any
membership, `"all"`, or index check — unknown targets surface only as
remote-connection failures, never as an `UnknownTarget` dispatch error.
(The index-as-target interpretation exists only in the interactive
`cmd_connect_ssh` flow, which prompts rather than fails on unknown
names.) -/
theorem C2_target_always_invoked_once (exec : String → String → Except RemoteError String)
    (command : String) (parallel : Bool) (wait : Int) (confirms : List Bool)
    (vmnames : List String) (target : String) :
    (cmd_remote_command exec command parallel wait (some target) confirms vmnames).invoked
        = [target ++ ".a8.nl"] := by
  unfold cmd_remote_command
  cases hr : exec (target ++ ".a8.nl") command with
  | error e => simp [hr]
  | ok r =>
    by_cases hempty : r = "" <;> simp [hr, hempty]

/-! ## Claim C5 -/

/-- C5 (counterexample to the claim as stated): one member, serial mode,
all-members dispatch, total transport — but the command string is itself
the member name `"core1"`, so line 665 (`if command not in vmnames`) skips
the whole loop and the Remote Executor is invoked zero times instead of
once per member. -/
theorem C5_counterexample :
    ("core1" ∈ ["core1"]) ∧
    (cmd_remote_command execOk "core1" false 0 none [] ["core1"]).invoked = [] := by
  refine ⟨by decide, rfl⟩

/-- C5 (amended): for a member list resolved by `get_vm_names`, serial
all-members dispatch invokes the Remote Executor exactly once per member,
in the order of the resolved list — which is sorted — and returns without
an escaping exception, PROVIDED the command string is not itself a member
name, the wait is not the interactive `-1` sentinel, and every remote
execution succeeds. -/
theorem C5_serial_once_per_member (env : VmEnv)
    (exec : String → String → Except RemoteError String) (command : String)
    (wait : Int) (confirms : List Bool) (l : List String)
    (hres : (get_vm_names env).result = .ok l)
    (hw : wait ≠ -1)
    (hcmd : command ∉ l)
    (hok : ∀ n ∈ l, ∃ r, exec (n ++ ".a8.nl") command = .ok r) :
    (cmd_remote_command exec command false wait none confirms l).invoked
        = l.map (fun n => n ++ ".a8.nl") ∧
    (cmd_remote_command exec command false wait none confirms l).escaped = none ∧
    List.Pairwise (fun a b => strLe a b = true) l := by
  have h := serialLoop_all_ok exec command wait hw l confirms hok
  refine ⟨?_, ?_, get_vm_names_ok_pairwise env l hres⟩
  · simpa [cmd_remote_command, hcmd] using h.1
  · simpa [cmd_remote_command, hcmd] using h.2

/-- Witness for C5 at a concrete project state with one member. -/
theorem C5_serial_once_per_member_witness :
    (cmd_remote_command execOk "uptime" false 0 none [] ["core1"]).invoked
        = ["core1"].map (fun n => n ++ ".a8.nl") ∧
    (cmd_remote_command execOk "uptime" false 0 none [] ["core1"]).escaped = none ∧
    List.Pairwise (fun a b => strLe a b = true) ["core1"] :=
  C5_serial_once_per_member envC5 execOk "uptime" 0 [] ["core1"] rfl (by decide) (by decide)
    (by
      intro n hn
      simp only [List.mem_singleton] at hn
      subst hn
      exact ⟨"out", rfl⟩)

/-! ## Claim C3 -/

/-- C3 (confirmed): if `get_vm_names` returns a non-empty member list, a
second call in the resulting project state (same directory, cache as left
behind by the first call) returns exactly the same ordered list, and the
second call is served by reading the cache file rather than re-deriving
membership. -/
theorem C3_resolve_members_idempotent (env : VmEnv) (l : List String)
    (h1 : (get_vm_names env).result = .ok l) (h2 : l ≠ []) :
    (get_vm_names { env with cache := (get_vm_names env).cache }).result = .ok l ∧
    (get_vm_names { env with cache := (get_vm_names env).cache }).fromCache = true := by
  simp only [get_vm_names_unfold] at h1 ⊢
  rcases env with ⟨vf, n, osx, cache, sf, sn⟩
  cases vf
  · exfalso
    simp [get_vm_names_body] at h1
    exact h2 h1
  · rcases cache with _ | pf
    · cases n with
      | zero =>
        exfalso
        simp [get_vm_names_body, get_num_instances, sortStr] at h1
        exact h2 h1
      | succ k =>
        simp [get_vm_names_body, get_num_instances] at h1 ⊢
        exact h1
    · cases pf with
      | corrupt => simp [get_vm_names_body] at h1
      | valid entries =>
        simp [get_vm_names_body] at h1 ⊢
        exact h1

/-- Witness for C3 at a concrete project state with one member. -/
theorem C3_resolve_members_idempotent_witness :
    (get_vm_names { envC5 with cache := (get_vm_names envC5).cache }).result
        = .ok ["core1"] ∧
    (get_vm_names { envC5 with cache := (get_vm_names envC5).cache }).fromCache = true :=
  C3_resolve_members_idempotent envC5 ["core1"] rfl (by decide)

/-! ## Claim C4 -/

/-- C4 (confirmed): with the cache file absent, three declared instances
and the non-OSX host platform, `get_vm_names` synthesizes exactly
`["node1","node2","node3"]` in sorted order and writes them to the cache
before returning; and in general the cache file is written only when at
least one member was found — a resolution returning the empty list leaves
the cache untouched. -/
theorem C4_synthesize_and_cache :
    ((get_vm_names envC4).result = .ok ["node1", "node2", "node3"] ∧
     (get_vm_names envC4).cache
        = some (.valid [("node1", none), ("node2", none), ("node3", none)])) ∧
    (∀ env : VmEnv, (get_vm_names env).result = .ok [] →
      (get_vm_names env).cache = env.cache) := by
  refine ⟨⟨rfl, rfl⟩, ?_⟩
  intro env h
  simp only [get_vm_names_unfold] at h ⊢
  rcases env with ⟨vf, n, osx, cache, sf, sn⟩
  cases vf
  · simp [get_vm_names_body]
  · rcases cache with _ | pf
    · cases n with
      | zero => simp [get_vm_names_body, get_num_instances]
      | succ k =>
        exfalso
        simp [get_vm_names_body, get_num_instances] at h
        have := sortStr_eq_nil h
        simp at this
    · cases pf with
      | corrupt => simp [get_vm_names_body] at h
      | valid entries => simp [get_vm_names_body]

/-- Witness for C4: a resolution that finds no member (zero declared
instances) writes no cache file. -/
theorem C4_synthesize_and_cache_witness :
    (get_vm_names envNoMembers).cache = envNoMembers.cache :=
  C4_synthesize_and_cache.2 envNoMembers rfl

/-! ## Claim C6 -/

/-- C6 (counterexample to the claim as stated): with an existing but
corrupt cache file, `get_vm_names` does NOT fall back to live resolution —
the unpickling error escapes (`except` catches only
`subprocess.CalledProcessError`), so no member list is produced at all. -/
theorem C6_counterexample :
    (get_vm_names envC6).result = .error .unpicklingError ∧
    (get_vm_names envC6).retries = 0 := by
  exact ⟨rfl, rfl⟩

/-- C6 (amended): an existing but corrupt membership cache is NOT treated
as a cache miss: `pickle.load`'s error propagates out of `get_vm_names`
(only `subprocess.CalledProcessError` is caught), no fallback resolution
runs, and the corrupt cache file is left in place. -/
theorem C6_corrupt_cache_raises (env : VmEnv)
    (hv : env.vagrantfileExists = true) (hc : env.cache = some .corrupt) :
    (get_vm_names env).result = .error .unpicklingError ∧
    (get_vm_names env).cache = some .corrupt ∧
    (get_vm_names env).fromCache = false ∧
    (get_vm_names env).retries = 0 := by
  simp only [get_vm_names_unfold]
  rcases env with ⟨vf, n, osx, cache, sf, sn⟩
  simp only at hv hc
  subst hv
  subst hc
  simp [get_vm_names_body]

/-- Witness for C6 at the concrete corrupt-cache state. -/
theorem C6_corrupt_cache_raises_witness :
    (get_vm_names envC6).result = .error .unpicklingError ∧
    (get_vm_names envC6).cache = some .corrupt ∧
    (get_vm_names envC6).fromCache = false ∧
    (get_vm_names envC6).retries = 0 :=
  C6_corrupt_cache_raises envC6 rfl rfl

/-! ## Claim C7 -/

/-- C7 (counterexample to the claim as stated): in a project state in which
the virtualization tool's live-status query would fail, `get_vm_names`
performs zero live-status queries, zero retries, and still returns the
synthesized member list — the retry-once-then-empty behaviour the claim
describes never runs, because the live-status query is unreachable. -/
theorem C7_counterexample :
    envC7.statusFails = true ∧
    (get_vm_names envC7).result = .ok ["node1", "node2", "node3"] ∧
    (get_vm_names envC7).statusCalls = 0 ∧
    (get_vm_names envC7).retries = 0 := by
  exact ⟨rfl, rfl, rfl, rfl⟩

/-- C7 (amended): the live-status query is dead code in `get_vm_names`:
`get_num_instances` always determines the instance count, so the
`numinstances is None` branch — the only caller of the virtualization
tool — never runs, and the `except subprocess.CalledProcessError` handler
(retry once from scratch, then return `[]`) never fires: every call
performs zero status queries and zero retries, whatever the external
tool would do. -/
theorem C7_no_status_query_no_retry (env : VmEnv) :
    (get_vm_names env).statusCalls = 0 ∧ (get_vm_names env).retries = 0 := by
  rw [get_vm_names_unfold]
  exact ⟨get_vm_names_body_statusCalls env, rfl⟩

/-! ## Claim C9 -/

/-- C9 (counterexample to the claim as stated): the `"same"` marker is not
exclusive to parallel mode.  In the single-target path (also reached with
`parallel=False`), the guard is `if result:` rather than
`if result.strip():`, so a whitespace-only non-empty output (here `" "`)
reaches the reporter, strips to `""`, equals the default empty
`lastoutput`, and is rendered as the `"same"` marker. -/
theorem C9_counterexample :
    (cmd_remote_command execBlank "run" false 0 (some "core1") [] ["core1"]).reports.map
        (fun p => p.2.renderedFull) = [false] := by
  rfl

/-- C9 (amended): in serial fan-out mode the dispatcher always calls the
result printer with the default empty previous-output argument, so every
serial fan-out report is rendered in full and the `"same"` marker never
appears there; the marker is produced in parallel mode, where the last
output is threaded through — and also in the single-target path for
whitespace-only output. -/
theorem C9_serial_full_parallel_same :
    (∀ (exec : String → String → Except RemoteError String) (command : String)
        (wait : Int) (confirms : List Bool) (vmnames : List String),
      ((cmd_remote_command exec command false wait none confirms vmnames).reports.all
        (fun p => p.2.renderedFull)) = true) ∧
    ((cmd_remote_command execOk "date" true 0 none [] ["core1", "core2"]).reports.map
        (fun p => p.2.renderedFull) = [true, false]) := by
  constructor
  · intro exec command wait confirms vmnames
    by_cases hc : command ∈ vmnames
    · simp [cmd_remote_command, hc]
    · simp only [cmd_remote_command]
      rw [if_neg hc, if_neg (by simp : ¬ (false = true))]
      exact serialLoop_reports_full exec command wait vmnames confirms
  · rfl

/-! ## Claim C10 -/

/-- C10 (confirmed): for a cache name whose file is absent under the
project's `.vckube` directory, `pickle_load` raises `FileExistsError`
(not `FileNotFoundError`) carrying the missing path, and leaves the
filesystem untouched. -/
theorem C10_pickle_load_missing {α : Type} (workingdir name : String)
    (fs : String → Option α)
    (h : fs (vckube_pickle_path workingdir name) = none) :
    (pickle_load workingdir name fs).1
        = .error (.fileExistsError (vckube_pickle_path workingdir name)) ∧
    (pickle_load workingdir name fs).2 = fs := by
  simp [pickle_load, h]

/-- Witness for C10 on an empty filesystem. -/
theorem C10_pickle_load_missing_witness :
    (pickle_load "/project" "vmdata" (fun _ => (none : Option String))).1
        = .error (.fileExistsError (vckube_pickle_path "/project" "vmdata")) ∧
    (pickle_load "/project" "vmdata" (fun _ => (none : Option String))).2
        = (fun _ => (none : Option String)) :=
  C10_pickle_load_missing "/project" "vmdata" (fun _ => none) rfl

end Vckube
